import Mathlib

/-!
Verification of the agent-council run-orchestration and voting core.

The definitions below are a shallow embedding of the Python source:
  * `backend/app/services/orchestrator.py` (instance labeling, blind labels,
    `run_evaluation` control flow),
  * `backend/app/services/voting.py` (`aggregate_votes`),
  * `backend/app/services/evaluation.py` (`assign_labels`).

Python strings become `String`, ints become `Nat`/`Int`, floats become `ℚ`,
`None`-able values become `Option`, dicts used as accumulators become
functions updated pointwise, and Python's stable `sorted(..., reverse=True)`
becomes `List.insertionSort` with the non-strict descending relation (a
stable sort is extensionally determined by the key preorder, and Mathlib's
insertion sort is stable).
-/

/-- Python truthiness of an optional string: `None` and `""` are falsy.
Mirrors `if not label` / `if label` checks in the source. -/
def strTruthy : Option String → Bool
  | none => false
  | some s => s ≠ ""

/-- One selected model row, as far as instance labeling is concerned:
`provider`, `model_name`, and the `instance_label` entry of its `params`
mapping (the only `params` key the labeling code reads or writes). -/
structure SelectedModel where
  provider : String
  model_name : String
  instance_label : Option String
deriving Repr, DecidableEq

/-- The `Counter((m.provider, m.model_name) for m in models)` lookup from
`_compute_instance_labels` (orchestrator.py line 43). -/
def countPairs (models : List SelectedModel) (key : String × String) : Nat :=
  (models.filter (fun m => (m.provider, m.model_name) = key)).length

/-- The main loop of `_compute_instance_labels` (orchestrator.py lines 48-66),
with the three mutable dicts (`per_model_counts`, `label_usage`, and the
per-model `params` write) made explicit.  `dup` is the precomputed
`duplicates` counter; `perModel` and `usage` are the running
`per_model_counts` and `label_usage` dicts.  Returns, in input order, each
model with its `params["instance_label"]` written, paired with the label
recorded in `label_map`. -/
def computeInstanceLabelsAux (dup : String × String → Nat) :
    List SelectedModel → ((String × String) → Nat) → (String → Nat) →
    List (SelectedModel × String)
  | [], _, _ => []
  | m :: rest, perModel, usage =>
    let key := (m.provider, m.model_name)
    let perModel' := fun k => if k = key then perModel k + 1 else perModel k
    let derived :=
      if dup key > 1 then m.model_name ++ " #" ++ toString (perModel' key)
      else m.model_name
    let label0 := if strTruthy m.instance_label then m.instance_label.getD "" else derived
    let usage' := fun s => if s = label0 then usage s + 1 else usage s
    let label :=
      if usage' label0 > 1 then label0 ++ " #" ++ toString (usage' label0) else label0
    ({ m with instance_label := some label }, label) ::
      computeInstanceLabelsAux dup rest perModel' usage'

/-- The labels produced by `_compute_instance_labels` (orchestrator.py lines
41-67), in input order.  The identical inline logic also appears in
`create_run` (lines 96-116) applied to raw input dicts. -/
def computeInstanceLabels (models : List SelectedModel) : List String :=
  (computeInstanceLabelsAux (countPairs models) models (fun _ => 0) (fun _ => 0)).map
    Prod.snd

/-- The models as mutated by `_compute_instance_labels`: each model's
`params["instance_label"]` now carries the label that was assigned to it. -/
def relabelModels (models : List SelectedModel) : List SelectedModel :=
  (computeInstanceLabelsAux (countPairs models) models (fun _ => 0) (fun _ => 0)).map
    Prod.fst

/-- Concrete input exhibiting the label collision: an explicit label `"x #2"`
together with two models that both derive the label `"x"` (distinct
providers, so neither gets a `#k` suffix from the duplicate counter). -/
def collisionModels : List SelectedModel :=
  [⟨"p", "a", some "x #2"⟩, ⟨"p", "b", some "x"⟩, ⟨"q", "c", some "x"⟩]

theorem suffix_ne_empty (a b : String) : a ++ " #" ++ b ≠ "" := by
  intro h
  have hlen := congrArg String.length h
  rw [String.length_append, String.length_append] at hlen
  rw [show (" #" : String).length = 2 from rfl,
    show ("" : String).length = 0 from rfl] at hlen
  omega

/-- The pre-dedup label of one loop iteration of `_compute_instance_labels`
(orchestrator.py lines 53-57): the explicit truthy `params["instance_label"]`
if present, else the derived candidate (`model_name`, suffixed with the
1-based occurrence index when the (provider, model_name) pair is
duplicated).  `pm` is the `per_model_counts` state before this iteration. -/
def passLabel0 (dup : String × String → Nat) (pm : (String × String) → Nat)
    (m : SelectedModel) : String :=
  if strTruthy m.instance_label then m.instance_label.getD ""
  else if dup (m.provider, m.model_name) > 1 then
    m.model_name ++ " #" ++ toString (pm (m.provider, m.model_name) + 1)
  else m.model_name

/-- The final label of one loop iteration (orchestrator.py lines 59-63):
the pre-dedup label, suffixed with its `label_usage` count when that label
was already used.  `us` is the `label_usage` state before this iteration. -/
def passFinal (dup : String × String → Nat) (pm : (String × String) → Nat)
    (us : String → Nat) (m : SelectedModel) : String :=
  if us (passLabel0 dup pm m) + 1 > 1 then
    passLabel0 dup pm m ++ " #" ++ toString (us (passLabel0 dup pm m) + 1)
  else passLabel0 dup pm m

theorem aux_cons (dup : String × String → Nat) (pm : (String × String) → Nat)
    (us : String → Nat) (m : SelectedModel) (rest : List SelectedModel) :
    computeInstanceLabelsAux dup (m :: rest) pm us
      = ({ m with instance_label := some (passFinal dup pm us m) },
          passFinal dup pm us m) ::
        computeInstanceLabelsAux dup rest
          (fun k => if k = (m.provider, m.model_name) then pm k + 1 else pm k)
          (fun s => if s = passLabel0 dup pm m then us s + 1 else us s) := by
  simp [computeInstanceLabelsAux, passFinal, passLabel0]

theorem passFinal_empty (dup : String × String → Nat)
    (pm : (String × String) → Nat) (us : String → Nat) (m : SelectedModel)
    (h : passFinal dup pm us m = "") : passLabel0 dup pm m = "" := by
  unfold passFinal at h
  by_cases hb : us (passLabel0 dup pm m) + 1 > 1
  · rw [if_pos hb] at h
    exact absurd h (suffix_ne_empty _ _)
  · rwa [if_neg hb] at h

theorem passLabel0_empty_derived (dup : String × String → Nat)
    (pm : (String × String) → Nat) (m : SelectedModel)
    (h : passLabel0 dup pm m = "") :
    (if dup (m.provider, m.model_name) > 1 then
        m.model_name ++ " #" ++ toString (pm (m.provider, m.model_name) + 1)
      else m.model_name) = "" := by
  unfold passLabel0 at h
  by_cases ht : strTruthy m.instance_label = true
  · rw [if_pos ht] at h
    cases hm : m.instance_label with
    | none => rw [hm] at ht; simp [strTruthy] at ht
    | some s =>
      rw [hm] at ht h
      simp only [strTruthy, ne_eq, decide_eq_true_eq] at ht
      simp only [Option.getD_some] at h
      exact absurd h ht
  · rwa [if_neg ht] at h

theorem passLabel0_relabel (dup : String × String → Nat)
    (pm : (String × String) → Nat) (us : String → Nat) (m : SelectedModel) :
    passLabel0 dup pm { m with instance_label := some (passFinal dup pm us m) }
      = passFinal dup pm us m := by
  by_cases hL : passFinal dup pm us m = ""
  · rw [hL]
    have hd := passLabel0_empty_derived dup pm m (passFinal_empty dup pm us m hL)
    unfold passLabel0
    simpa [strTruthy] using hd
  · unfold passLabel0
    simp [strTruthy, hL]

theorem passFinal_relabel (dup : String × String → Nat)
    (pm : (String × String) → Nat) (us1 us2 : String → Nat) (m : SelectedModel)
    (hz : us2 (passFinal dup pm us1 m) = 0) :
    passFinal dup pm us2 { m with instance_label := some (passFinal dup pm us1 m) }
      = passFinal dup pm us1 m := by
  have hp := passLabel0_relabel dup pm us1 m
  generalize hgen : passFinal dup pm us1 m = L at hz hp ⊢
  unfold passFinal
  rw [hp, hz]
  norm_num

theorem keysPreserved (dup : String × String → Nat) :
    ∀ (ms : List SelectedModel) (pm : (String × String) → Nat) (us : String → Nat),
      ((computeInstanceLabelsAux dup ms pm us).map Prod.fst).map
          (fun m => (m.provider, m.model_name))
        = ms.map (fun m => (m.provider, m.model_name))
  | [], _, _ => rfl
  | m :: rest, pm, us => by
    rw [aux_cons]
    simp only [List.map_cons]
    rw [keysPreserved dup rest _ _]

theorem countPairs_congr {ms1 ms2 : List SelectedModel}
    (h : ms1.map (fun m => (m.provider, m.model_name))
      = ms2.map (fun m => (m.provider, m.model_name))) :
    countPairs ms1 = countPairs ms2 := by
  funext key
  unfold countPairs
  rw [← List.countP_eq_length_filter, ← List.countP_eq_length_filter]
  rw [show (fun m : SelectedModel => decide ((m.provider, m.model_name) = key))
      = ((fun k => decide (k = key)) ∘ (fun m => (m.provider, m.model_name)))
    from rfl]
  rw [← List.countP_map, ← List.countP_map, h]

theorem auxIdem (dup : String × String → Nat) :
    ∀ (ms : List SelectedModel) (pm : (String × String) → Nat)
      (us1 us2 : String → Nat),
      ((computeInstanceLabelsAux dup ms pm us1).map Prod.snd).Nodup →
      (∀ l ∈ (computeInstanceLabelsAux dup ms pm us1).map Prod.snd, us2 l = 0) →
      (computeInstanceLabelsAux dup
          ((computeInstanceLabelsAux dup ms pm us1).map Prod.fst) pm us2).map Prod.snd
        = (computeInstanceLabelsAux dup ms pm us1).map Prod.snd
  | [], _, _, _, _, _ => rfl
  | m :: rest, pm, us1, us2, hnd, hz => by
    rw [aux_cons dup pm us1 m rest] at hnd hz ⊢
    rw [List.map_cons] at hnd hz ⊢
    rw [List.map_cons, aux_cons dup pm us2, List.map_cons]
    have hnd' := List.nodup_cons.mp hnd
    have hzL : us2 (passFinal dup pm us1 m) = 0 :=
      hz _ (List.mem_cons_self _ _)
    congr 1
    · exact passFinal_relabel dup pm us1 us2 m hzL
    · refine auxIdem dup rest _ _ _ hnd'.2 (fun l hl => ?_)
      have hlne : l ≠ passFinal dup pm us1 m := fun he => hnd'.1 (he ▸ hl)
      rw [passLabel0_relabel dup pm us1 m, if_neg hlne]
      exact hz l (List.mem_cons_of_mem _ hl)

/-- Claim C1: the spec (and the docstring of `_compute_instance_labels`)
promise that the labeling step yields pairwise-distinct labels for every
input.  The code violates this: with explicit labels `"x #2"`, `"x"`, `"x"`
the dedup suffixing turns the third label into `"x #2"`, colliding with the
first.  This theorem evaluates the embedded code at that failing input. -/
theorem C1_label_collision :
    computeInstanceLabels collisionModels = ["x #2", "x", "x #2"] ∧
      ¬ (computeInstanceLabels collisionModels).Nodup := by
  constructor
  · rfl
  · decide

/-- Claim C9, counterexample: labeling is not idempotent on every input.  On
`collisionModels` the first pass yields `["x #2", "x", "x #2"]` and the
second pass, seeing the duplicated explicit label `"x #2"` twice, renames
the second occurrence to `"x #2 #2"`. -/
theorem C9_not_idempotent :
    computeInstanceLabels (relabelModels collisionModels)
      ≠ computeInstanceLabels collisionModels := by
  decide

/-- Claim C9, amended: instance labeling is idempotent on every model list
whose first pass produced pairwise-distinct labels (every input not hitting
the C1 collision bug): re-running `_compute_instance_labels` on the mutated
models (whose params now carry the first-pass labels) reproduces exactly
those labels.  A truthy stored label short-circuits re-derivation, and a
falsy (empty) stored label is re-derived identically, since the duplicate
and per-model counters depend only on (provider, model_name), which
relabeling preserves. -/
theorem C9_idempotent_of_nodup (models : List SelectedModel)
    (h1 : (computeInstanceLabels models).Nodup) :
    computeInstanceLabels (relabelModels models) = computeInstanceLabels models := by
  have hdup : countPairs (relabelModels models) = countPairs models :=
    countPairs_congr
      (keysPreserved (countPairs models) models (fun _ => 0) (fun _ => 0))
  unfold computeInstanceLabels at h1 ⊢
  unfold relabelModels at hdup ⊢
  rw [hdup]
  exact auxIdem (countPairs models) models (fun _ => 0) (fun _ => 0) (fun _ => 0)
    h1 (fun _ _ => rfl)

/-- Claim C9, witness for the amended theorem: two copies of the same model
get labels `"a #1"` and `"a #2"`; re-labeling reproduces them. -/
theorem C9_idempotent_witness :
    computeInstanceLabels (relabelModels [⟨"p", "a", none⟩, ⟨"p", "a", none⟩])
      = computeInstanceLabels [⟨"p", "a", none⟩, ⟨"p", "a", none⟩] :=
  C9_idempotent_of_nodup _ (by decide)


/-- One per-answer score record of a parsed review (voting.py lines 60-68 and
orchestrator.py lines 376-384): the optional `label` field and the `overall`
and `correctness` entries of its `scores` dict, with the Python
`scores.get(..., 0)` default already applied. -/
structure ScoreRecord where
  label : Option String
  overall : ℚ
  correctness : ℚ
deriving Repr, DecidableEq

/-- One review as consumed by `aggregate_votes` (voting.py): its `rank_order`
and its `reviews` list of per-answer score records. -/
structure ReviewVote where
  rank_order : List String
  reviews : List ScoreRecord
deriving Repr, DecidableEq

/-- The five accumulator dicts of `aggregate_votes` (voting.py lines 35-39),
as total functions that are 0 outside the label universe (the code only ever
reads them at universe keys). -/
structure VoteState where
  borda : String → Nat
  firstPlace : String → Nat
  scoreSums : String → ℚ
  scoreCounts : String → Nat
  corrSums : String → ℚ

def initVoteState : VoteState :=
  ⟨fun _ => 0, fun _ => 0, fun _ => 0, fun _ => 0, fun _ => 0⟩

/-- The Borda inner loop (voting.py lines 51-53): walk the enumerated
`rank_order` and, for each position whose label is in the universe, add
`n - 1 - position` to that label's total. -/
def addBorda (uni : List String) (n : Nat) (b : String → Nat)
    (ps : List (Nat × String)) : String → Nat :=
  ps.foldl
    (fun b p =>
      if p.2 ∈ uni then fun l => if l = p.2 then b p.2 + (n - 1 - p.1) else b l else b)
    b

/-- The score-collection inner loop (voting.py lines 60-68): for each record
with a truthy label that is in the universe, accumulate `overall` into
`score_sums`, `correctness` into `correctness_sums`, and bump
`score_counts`. -/
def addScores (uni : List String) (recs : List ScoreRecord)
    (acc : (String → ℚ) × (String → Nat) × (String → ℚ)) :
    (String → ℚ) × (String → Nat) × (String → ℚ) :=
  recs.foldl
    (fun acc rec =>
      if strTruthy rec.label ∧ rec.label.getD "" ∈ uni then
        let l := rec.label.getD ""
        (fun x => if x = l then acc.1 x + rec.overall else acc.1 x,
         fun x => if x = l then acc.2.1 x + 1 else acc.2.1 x,
         fun x => if x = l then acc.2.2 x + rec.correctness else acc.2.2 x)
      else acc)
    acc

/-- The first-place update (voting.py lines 56-57): if the rank order is
non-empty and its head is in the universe, bump that label's count. -/
def firstPlaceUpdate (uni : List String) (fp : String → Nat) (ro : List String) :
    String → Nat :=
  match ro.head? with
  | some f =>
      if f ∈ uni then fun l => if l = f then fp l + 1 else fp l else fp
  | none => fp

/-- The body of the `for review in reviews` loop of `aggregate_votes`
(voting.py lines 41-68).  A review with an empty `rank_order` is skipped
entirely (the `continue`), including its score records. -/
def processReview (uni : List String) (st : VoteState) (rv : ReviewVote) : VoteState :=
  if rv.rank_order.isEmpty then st
  else
    let n := rv.rank_order.length
    let borda' := addBorda uni n st.borda rv.rank_order.enum
    let fp' := firstPlaceUpdate uni st.firstPlace rv.rank_order
    let scored := addScores uni rv.reviews (st.scoreSums, st.scoreCounts, st.corrSums)
    ⟨borda', fp', scored.1, scored.2.1, scored.2.2⟩

/-- The accumulator state after the whole `for review in reviews` loop. -/
def voteState (reviews : List ReviewVote) (uni : List String) : VoteState :=
  reviews.foldl (processReview uni) initVoteState

/-- The average computation of voting.py lines 70-79: guarded division, 0.0
when no scores were recorded for the label. -/
def scoreAvg (st : VoteState) (l : String) : ℚ :=
  if 0 < st.scoreCounts l then st.scoreSums l / (st.scoreCounts l : ℚ) else 0

/-- Internal correctness average (voting.py line 76/79), used only as the
final tie-break component. -/
def corrAvg (st : VoteState) (l : String) : ℚ :=
  if 0 < st.scoreCounts l then st.corrSums l / (st.scoreCounts l : ℚ) else 0

/-- The sort key of voting.py lines 82-90: the tuple
`(borda_totals[l], score_averages[l], correctness_averages[l])`, compared
lexicographically as in Python. -/
def labelKey (st : VoteState) (l : String) : Nat ×ₗ (ℚ ×ₗ ℚ) :=
  toLex (st.borda l, toLex (scoreAvg st l, corrAvg st l))

structure VoteBreakdown where
  borda_totals : String → Nat
  first_place_votes : String → Nat
  score_averages : String → ℚ

structure AggregationOutput where
  final_ranking : List String
  vote_breakdown : VoteBreakdown

/-- Shallow embedding of `VotingService.aggregate_votes` (voting.py lines
21-99).  `uni` is the iteration order of `set(label_to_model.keys())`: the
universe of labels in the order the Python set happens to yield them (CPython
does not fix this order across processes for strings).  The final descending
stable sort `sorted(all_labels, key=..., reverse=True)` is embedded as
`List.insertionSort` with the non-strict descending key relation, which is
stable with exactly Python's tie behaviour. -/
def aggregate_votes (reviews : List ReviewVote) (uni : List String) :
    AggregationOutput :=
  let st := voteState reviews uni
  let sorted_labels :=
    uni.insertionSort (fun a b => labelKey st b ≤ labelKey st a)
  ⟨sorted_labels,
   ⟨st.borda, st.firstPlace, fun l => scoreAvg st l⟩⟩

theorem addBorda_perm {u1 u2 : List String} (h : u1.Perm u2) (n : Nat)
    (b : String → Nat) (ps : List (Nat × String)) :
    addBorda u1 n b ps = addBorda u2 n b ps := by
  unfold addBorda
  congr 1
  funext b p
  exact if_congr h.mem_iff rfl rfl

theorem firstPlaceUpdate_perm {u1 u2 : List String} (h : u1.Perm u2)
    (fp : String → Nat) (ro : List String) :
    firstPlaceUpdate u1 fp ro = firstPlaceUpdate u2 fp ro := by
  unfold firstPlaceUpdate
  cases ro.head? with
  | none => rfl
  | some f => exact if_congr h.mem_iff rfl rfl

theorem addScores_perm {u1 u2 : List String} (h : u1.Perm u2)
    (recs : List ScoreRecord)
    (acc : (String → ℚ) × (String → Nat) × (String → ℚ)) :
    addScores u1 recs acc = addScores u2 recs acc := by
  unfold addScores
  congr 1
  funext acc rec
  exact if_congr (and_congr Iff.rfl h.mem_iff) rfl rfl

theorem processReview_perm {u1 u2 : List String} (h : u1.Perm u2)
    (st : VoteState) (rv : ReviewVote) :
    processReview u1 st rv = processReview u2 st rv := by
  unfold processReview
  simp only [addBorda_perm h, firstPlaceUpdate_perm h, addScores_perm h]

theorem voteState_perm {u1 u2 : List String} (h : u1.Perm u2)
    (reviews : List ReviewVote) :
    voteState reviews u1 = voteState reviews u2 := by
  unfold voteState
  congr 1
  funext st rv
  exact processReview_perm h st rv

theorem sorted_perm_eq {α : Type} {r : α → α → Prop} :
    ∀ {l₁ l₂ : List α}, l₁.Perm l₂ → l₁.Sorted r → l₂.Sorted r →
      (∀ a ∈ l₁, ∀ b ∈ l₁, r a b → r b a → a = b) → l₁ = l₂
  | [], l₂, hp, _, _, _ => hp.symm.eq_nil.symm
  | a :: t₁, [], hp, _, _, _ => absurd hp.eq_nil (by simp)
  | a :: t₁, b :: t₂, hp, hs₁, hs₂, anti => by
    have hs₁' := List.sorted_cons.mp hs₁
    have hs₂' := List.sorted_cons.mp hs₂
    have hab : a = b := by
      by_cases hab : a = b
      · exact hab
      · have hbmem : b ∈ a :: t₁ := hp.mem_iff.mpr (List.mem_cons_self b t₂)
        have hb : b ∈ t₁ := by
          rcases List.mem_cons.mp hbmem with h | h
          · exact absurd h.symm hab
          · exact h
        have hamem : a ∈ b :: t₂ := hp.mem_iff.mp (List.mem_cons_self a t₁)
        have ha : a ∈ t₂ := by
          rcases List.mem_cons.mp hamem with h | h
          · exact absurd h hab
          · exact h
        exact anti a (List.mem_cons_self a t₁) b hbmem (hs₁'.1 b hb) (hs₂'.1 a ha)
    subst hab
    have ht : t₁ = t₂ :=
      sorted_perm_eq hp.cons_inv hs₁'.2 hs₂'.2
        (fun x hx y hy => anti x (List.mem_cons_of_mem a hx) y (List.mem_cons_of_mem a hy))
    rw [ht]

/-- Claim C2, counterexample: `aggregate_votes` is not deterministic for the
same reviews and the same `label_to_model` mapping, because exactly-tied
labels are emitted in the iteration order of `set(label_to_model.keys())`,
which CPython does not fix across processes.  Here the universe `{A, B}` in
its two possible iteration orders, with no reviews (so all sort keys tie),
yields two different final rankings. -/
theorem C2_tie_order_dependent :
    (["A", "B"] : List String).Perm ["B", "A"] ∧
      (aggregate_votes [] ["A", "B"]).final_ranking
        ≠ (aggregate_votes [] ["B", "A"]).final_ranking := by
  constructor
  · decide
  · decide

/-- Claim C2, amended: for a fixed iteration order of the label universe the
function is trivially deterministic, and the final ranking is independent of
that iteration order whenever no two universe labels are exactly tied on the
whole sort key (borda total, score average, correctness average); only
exact ties depend on the set's iteration order. -/
theorem C2_deterministic_of_injective_keys (reviews : List ReviewVote)
    (u1 u2 : List String) (hperm : u1.Perm u2)
    (hinj : ∀ a ∈ u1, ∀ b ∈ u1,
      labelKey (voteState reviews u1) a = labelKey (voteState reviews u1) b → a = b) :
    (aggregate_votes reviews u1).final_ranking
      = (aggregate_votes reviews u2).final_ranking := by
  have hst : voteState reviews u2 = voteState reviews u1 :=
    (voteState_perm hperm reviews).symm
  show List.insertionSort _ u1 = List.insertionSort _ u2
  rw [hst]
  set st := voteState reviews u1 with hstdef
  set r := fun a b => labelKey st b ≤ labelKey st a with hrdef
  haveI htot : IsTotal String r := ⟨fun a b => le_total (labelKey st b) (labelKey st a)⟩
  haveI htrans : IsTrans String r :=
    ⟨fun a b c hab hbc => le_trans hbc hab⟩
  refine sorted_perm_eq ?_ (List.sorted_insertionSort r u1) (List.sorted_insertionSort r u2)
    ?_
  · exact (List.perm_insertionSort r u1).trans (hperm.trans (List.perm_insertionSort r u2).symm)
  · intro a ha b hb hab hba
    have ha' : a ∈ u1 := (List.perm_insertionSort r u1).mem_iff.mp ha
    have hb' : b ∈ u1 := (List.perm_insertionSort r u1).mem_iff.mp hb
    exact hinj a ha' b hb' (le_antisymm hba hab)

/-- Claim C2, witness: with one review ranking A over B the sort keys are
injective and both universe iteration orders give the same final ranking. -/
theorem C2_deterministic_witness :
    (aggregate_votes [⟨["A", "B"], []⟩] ["A", "B"]).final_ranking
      = (aggregate_votes [⟨["A", "B"], []⟩] ["B", "A"]).final_ranking :=
  C2_deterministic_of_injective_keys _ _ _ (by decide) (by decide)

/-- Borda points one review awards to label `x` as the spec describes them:
`n - 1 - position` for each position of the enumerated rank order holding
`x`, counting only labels in the universe. -/
def bordaGain (uni : List String) (ro : List String) (x : String) : Nat :=
  (ro.enum.map
    (fun p => if p.2 = x ∧ p.2 ∈ uni then ro.length - 1 - p.1 else 0)).sum

theorem addBorda_apply (uni : List String) (n : Nat) :
    ∀ (ps : List (Nat × String)) (b : String → Nat) (x : String),
      addBorda uni n b ps x
        = b x + (ps.map (fun p => if p.2 = x ∧ p.2 ∈ uni then n - 1 - p.1 else 0)).sum
  | [], b, x => by simp [addBorda]
  | p :: ps, b, x => by
    have step : addBorda uni n b (p :: ps)
        = addBorda uni n
            (if p.2 ∈ uni then fun l => if l = p.2 then b p.2 + (n - 1 - p.1) else b l
             else b) ps := rfl
    rw [step, addBorda_apply uni n ps, List.map_cons, List.sum_cons]
    by_cases hmem : p.2 ∈ uni
    · by_cases hx : x = p.2
      · subst hx
        simp [hmem]
        omega
      · simp [hmem, hx, Ne.symm hx]
    · simp [hmem]

theorem firstPlaceUpdate_apply (uni : List String) (fp : String → Nat)
    (ro : List String) (hne : ro ≠ []) (x : String) (hx : x ∈ uni) :
    firstPlaceUpdate uni fp ro x
      = fp x + if ro.head? = some x then 1 else 0 := by
  cases ro with
  | nil => exact absurd rfl hne
  | cons f rest =>
    unfold firstPlaceUpdate
    simp only [List.head?_cons]
    by_cases hf : f ∈ uni
    · simp only [if_pos hf]
      by_cases hxf : x = f
      · subst hxf
        simp
      · simp [hxf, Ne.symm hxf]
    · have hxf : x ≠ f := fun h => hf (h ▸ hx)
      simp [if_neg hf, Ne.symm hxf]

/-- Claim C3: for every review with a non-empty rank order of length n,
`aggregate_votes` awards `n - 1 - position` Borda points to the label at
each position (labels outside the universe ignored) and one first-place
vote to the head of the rank order; and on the concrete scenario with
universe `{A, B, C}` the review `[A, B, C]` yields Borda totals
`A=2, B=1, C=0` with first-place votes `A=1, B=0, C=0`, and adding the
review `[B, A, C]` yields cumulative Borda totals `A=3, B=3, C=0`. -/
theorem C3_borda_points (uni : List String) (st : VoteState) (rv : ReviewVote)
    (hne : rv.rank_order ≠ []) :
    ((∀ x, (processReview uni st rv).borda x
        = st.borda x + bordaGain uni rv.rank_order x) ∧
     (∀ x ∈ uni, (processReview uni st rv).firstPlace x
        = st.firstPlace x + if rv.rank_order.head? = some x then 1 else 0)) ∧
    ((aggregate_votes [⟨["A", "B", "C"], []⟩] ["A", "B", "C"]).vote_breakdown.borda_totals "A" = 2 ∧
     (aggregate_votes [⟨["A", "B", "C"], []⟩] ["A", "B", "C"]).vote_breakdown.borda_totals "B" = 1 ∧
     (aggregate_votes [⟨["A", "B", "C"], []⟩] ["A", "B", "C"]).vote_breakdown.borda_totals "C" = 0 ∧
     (aggregate_votes [⟨["A", "B", "C"], []⟩] ["A", "B", "C"]).vote_breakdown.first_place_votes "A" = 1 ∧
     (aggregate_votes [⟨["A", "B", "C"], []⟩] ["A", "B", "C"]).vote_breakdown.first_place_votes "B" = 0 ∧
     (aggregate_votes [⟨["A", "B", "C"], []⟩] ["A", "B", "C"]).vote_breakdown.first_place_votes "C" = 0 ∧
     (aggregate_votes [⟨["A", "B", "C"], []⟩, ⟨["B", "A", "C"], []⟩]
        ["A", "B", "C"]).vote_breakdown.borda_totals "A" = 3 ∧
     (aggregate_votes [⟨["A", "B", "C"], []⟩, ⟨["B", "A", "C"], []⟩]
        ["A", "B", "C"]).vote_breakdown.borda_totals "B" = 3 ∧
     (aggregate_votes [⟨["A", "B", "C"], []⟩, ⟨["B", "A", "C"], []⟩]
        ["A", "B", "C"]).vote_breakdown.borda_totals "C" = 0) := by
  have hempty : rv.rank_order.isEmpty = false := by
    cases h : rv.rank_order with
    | nil => exact absurd h hne
    | cons a l => rfl
  refine ⟨⟨fun x => ?_, fun x hx => ?_⟩, by decide⟩
  · unfold processReview
    simp only [hempty, Bool.false_eq_true, if_false]
    exact addBorda_apply uni rv.rank_order.length rv.rank_order.enum st.borda x
  · unfold processReview
    simp only [hempty, Bool.false_eq_true, if_false]
    exact firstPlaceUpdate_apply uni st.firstPlace rv.rank_order hne x hx

/-- Claim C3, witness: the general per-review Borda update applied to a
concrete one-review state. -/
theorem C3_borda_points_witness :
    (processReview ["A", "B"] initVoteState ⟨["A", "B"], []⟩).borda "A"
      = initVoteState.borda "A" + bordaGain ["A", "B"] ["A", "B"] "A" :=
  (C3_borda_points ["A", "B"] initVoteState ⟨["A", "B"], []⟩ (by decide)).1.1 "A"

/-- Claim C8: in `aggregate_votes`, a universe label with zero recorded
score records gets `score_averages` (and internal correctness average)
exactly 0, the guarded division never being taken; a label with a positive
count gets exactly `score_sums / score_counts` (and
`correctness_sums / score_counts`). -/
theorem C8_division_guard (reviews : List ReviewVote) (uni : List String)
    (l : String) (hl : l ∈ uni) :
    ((voteState reviews uni).scoreCounts l = 0 →
       (aggregate_votes reviews uni).vote_breakdown.score_averages l = 0 ∧
       corrAvg (voteState reviews uni) l = 0) ∧
    (0 < (voteState reviews uni).scoreCounts l →
       (aggregate_votes reviews uni).vote_breakdown.score_averages l
          = (voteState reviews uni).scoreSums l
              / ((voteState reviews uni).scoreCounts l : ℚ) ∧
       corrAvg (voteState reviews uni) l
          = (voteState reviews uni).corrSums l
              / ((voteState reviews uni).scoreCounts l : ℚ)) := by
  constructor
  · intro h
    constructor
    · show scoreAvg (voteState reviews uni) l = 0
      unfold scoreAvg
      simp [h]
    · unfold corrAvg
      simp [h]
  · intro h
    constructor
    · show scoreAvg (voteState reviews uni) l = _
      unfold scoreAvg
      simp [h]
    · unfold corrAvg
      simp [h]

/-- Claim C8, witness: with no reviews the count of label A is zero and its
average is exactly 0. -/
theorem C8_division_guard_witness :
    (aggregate_votes [] ["A", "B"]).vote_breakdown.score_averages "A" = 0 ∧
      corrAvg (voteState [] ["A", "B"]) "A" = 0 :=
  (C8_division_guard [] ["A", "B"] "A" (by decide)).1 (by decide)


/-- The sort key of the derived-rank fallback (orchestrator.py lines
376-383): `(scores.get("overall", 0), scores.get("correctness", 0))`,
compared lexicographically. -/
def recKey (rec : ScoreRecord) : ℚ ×ₗ ℚ :=
  toLex (rec.overall, rec.correctness)

/-- Python's stable `sorted(parsed_reviews, key=..., reverse=True)` on score
records, embedded as stable insertion sort with the non-strict descending
key relation. -/
def sortRecordsDesc (recs : List ScoreRecord) : List ScoreRecord :=
  recs.insertionSort (fun a b => recKey b ≤ recKey a)

/-- The `r.get("label")` extraction guarded by truthiness, used in
`[r.get("label") for r in ranked if r.get("label")]` (orchestrator.py line
384). -/
def truthyLabel (rec : ScoreRecord) : Option String :=
  if strTruthy rec.label then rec.label else none

/-- One adapter review result (`ReviewResult` dataclass of adapters/base.py)
as consumed by the orchestrator. -/
structure ReviewResult where
  rank_order : List String
  parsed_reviews : List ScoreRecord
  confidence : ℚ
  raw_response : String
  error : Option String

/-- The rank order derived from scores when the model omitted `rank_order`
(orchestrator.py lines 373-386): sort parsed reviews descending by
(overall, correctness), then extract the truthy labels. -/
def derivedLabels (r : ReviewResult) : List String :=
  (sortRecordsDesc r.parsed_reviews).filterMap truthyLabel

/-- One Answer row as seen by `run_evaluation` (orchestrator.py lines
241-250): its blind label (nullable in the ORM) and its error field; the
other dict entries (text, provider, producer_model) play no role in the
claims' control flow and are omitted. -/
structure AnswerRow where
  label : Option String
  error : Option String
deriving Repr, DecidableEq

/-- The fallback label list `[a["label"] for a in answers if a.get("label")]`
(orchestrator.py line 389). -/
def fallbackLabels (good : List AnswerRow) : List String :=
  good.filterMap (fun a => if strTruthy a.label then a.label else none)

/-- What one reviewer task delivered through the gather barrier
(orchestrator.py lines 343-357): either an exception (its message) or the
reviewer's resolved instance label together with the adapter result after
the retry loop. -/
inductive ReviewerOutcome where
  | exc (msg : String)
  | res (provider : String) (name : String) (r : ReviewResult)

/-- One persisted Review row / `review_data` entry (orchestrator.py lines
408-424). -/
structure ReviewEntry where
  reviewer_model : String
  reviewer_provider : String
  reviews : List ScoreRecord
  rank_order : List String
deriving DecidableEq

/-- Result of post-processing one reviewer outcome: either a collected
failure reason (appended to `review_failures`) or a Review row. -/
inductive Processed where
  | failure (reason : String)
  | review (entry : ReviewEntry)

/-- Per-reviewer result post-processing of `run_evaluation` (orchestrator.py
lines 352-424): exceptions and adapter-level errors become failures; an
empty rank order is first re-derived from scores, then replaced by the
candidate labels when at least 2 exist, and otherwise the result is
discarded as an `"empty rank_order"` failure. -/
def processOutcome (good : List AnswerRow) (o : ReviewerOutcome) : Processed :=
  match o with
  | .exc msg => .failure msg
  | .res provider name r =>
    if strTruthy r.error then .failure (name ++ ": " ++ r.error.getD "")
    else
      let rank1 :=
        if r.rank_order = [] ∧ r.parsed_reviews ≠ [] then derivedLabels r
        else r.rank_order
      if rank1 = [] then
        if 2 ≤ (fallbackLabels good).length then
          .review ⟨name, provider, r.parsed_reviews, fallbackLabels good⟩
        else .failure (name ++ ": empty rank_order")
      else .review ⟨name, provider, r.parsed_reviews, rank1⟩

/-- Run status enum (models/schemas.py lines 7-13). -/
inductive RunStatus where
  | PENDING
  | GENERATING_ANSWERS
  | ANSWERS_COMPLETE
  | EVALUATING
  | COMPLETE
  | FAILED
deriving Repr, DecidableEq

/-- The non-errored answers gathered at orchestrator.py lines 241-250. -/
def goodAnswers (answers : List AnswerRow) : List AnswerRow :=
  answers.filter (fun a => !(strTruthy a.error))

/-- The `review_data` list after post-processing all outcomes. -/
def usableReviews (good : List AnswerRow) (outcomes : List ReviewerOutcome) :
    List ReviewEntry :=
  (outcomes.map (processOutcome good)).filterMap
    (fun p => match p with | .review e => some e | .failure _ => none)

/-- The `review_failures` list after post-processing all outcomes. -/
def reviewFailures (good : List AnswerRow) (outcomes : List ReviewerOutcome) :
    List String :=
  (outcomes.map (processOutcome good)).filterMap
    (fun p => match p with | .failure s => some s | .review _ => none)

/-- The failure message built at orchestrator.py lines 432-434. -/
def evalFailDetail (noData : Bool) (failures : List String) : String :=
  let base := if noData then "No valid reviews returned" else "Some reviewers failed"
  if failures.isEmpty then base else base ++ ": " ++ String.intercalate ", " failures

/-- First-occurrence deduplication, the key order of the
`label_to_model` dict built from the good answers. -/
def dedupFirst (l : List String) : List String :=
  l.foldl (fun acc x => if x ∈ acc then acc else acc ++ [x]) []

/-- The observable outcome of one `run_evaluation` call: the final persisted
run status, the Review rows that were added and flushed (and committed with
the final status), the AggregationResult if one was created, and the message
of the `ValueError` raised, if any. -/
structure EvalOutcome where
  status : RunStatus
  persistedReviews : List ReviewEntry
  aggregation : Option AggregationOutput
  errorRaised : Option String

/-- Shallow embedding of the decision structure of `run_evaluation`
(orchestrator.py lines 222-465).  The adapter calls themselves are external:
their results enter as `outcomes`, one per attempted reviewer, in gather
order.  Persistence is modelled by the fields of `EvalOutcome`: rows added
and flushed before a commit are persisted by it, so the Review rows created
at lines 408-426 survive the FAILED commit of line 431.  The universe handed
to `aggregate_votes` is the label_to_model key order (labels of good answers,
first occurrence); generation always assigns labels, so `getD ""` is never
exercised on real runs. -/
def run_evaluation (answers : List AnswerRow) (outcomes : List ReviewerOutcome) :
    EvalOutcome :=
  let good := goodAnswers answers
  if good.length < 2 then
    ⟨.FAILED, [], none, some "Need at least 2 successful answers to evaluate"⟩
  else
    let reviewData := usableReviews good outcomes
    let failures := reviewFailures good outcomes
    if reviewData = [] ∨ reviewData.length < outcomes.length then
      ⟨.FAILED, reviewData, none, some (evalFailDetail reviewData.isEmpty failures)⟩
    else
      let uni := dedupFirst (good.map (fun a => a.label.getD ""))
      ⟨.COMPLETE, reviewData,
       some (aggregate_votes (reviewData.map (fun e => ⟨e.rank_order, e.reviews⟩)) uni),
       none⟩

theorem run_evaluation_of_enough (answers : List AnswerRow)
    (outcomes : List ReviewerOutcome)
    (hn : ¬ ((goodAnswers answers).length < 2)) :
    run_evaluation answers outcomes =
      if usableReviews (goodAnswers answers) outcomes = [] ∨
          (usableReviews (goodAnswers answers) outcomes).length < outcomes.length then
        ⟨RunStatus.FAILED, usableReviews (goodAnswers answers) outcomes, none,
         some (evalFailDetail (usableReviews (goodAnswers answers) outcomes).isEmpty
             (reviewFailures (goodAnswers answers) outcomes))⟩
      else
        ⟨RunStatus.COMPLETE, usableReviews (goodAnswers answers) outcomes,
         some (aggregate_votes
             ((usableReviews (goodAnswers answers) outcomes).map
               (fun e => ⟨e.rank_order, e.reviews⟩))
             (dedupFirst ((goodAnswers answers).map (fun a => a.label.getD "")))),
         none⟩ := by
  simp [run_evaluation, hn]

/-- Claim C5: with fewer than 2 non-errored answers, `run_evaluation`
persists FAILED, raises exactly "Need at least 2 successful answers to
evaluate", creates no Review rows and no AggregationResult; the reviewer
outcomes are never consulted (the result equals the run with no reviewers
at all). -/
theorem C5_min_answers_gate (answers : List AnswerRow)
    (outcomes : List ReviewerOutcome)
    (h : (goodAnswers answers).length < 2) :
    run_evaluation answers outcomes
      = ⟨RunStatus.FAILED, [], none,
          some "Need at least 2 successful answers to evaluate"⟩ ∧
    run_evaluation answers outcomes = run_evaluation answers [] := by
  constructor <;> simp [run_evaluation, h]

/-- Claim C5, witness: one errored and one good answer trip the gate. -/
theorem C5_min_answers_witness :
    run_evaluation [⟨some "A", some "boom"⟩, ⟨some "B", none⟩]
        [ReviewerOutcome.exc "x"]
      = ⟨RunStatus.FAILED, [], none,
          some "Need at least 2 successful answers to evaluate"⟩ :=
  (C5_min_answers_gate _ _ (by decide)).1

/-- Claim C4: when some attempted reviewer failed (fewer usable reviews
than attempted reviewers) or zero reviews succeeded, the run is FAILED, the
raised error lists the collected failure reasons, and no AggregationResult
is created; and an AggregationResult exists only when every attempted
reviewer produced a usable review (and at least one reviewer was
attempted), with the run COMPLETE. -/
theorem C4_all_or_nothing (answers : List AnswerRow)
    (outcomes : List ReviewerOutcome)
    (h2 : 2 ≤ (goodAnswers answers).length) :
    ((usableReviews (goodAnswers answers) outcomes).length < outcomes.length ∨
        (usableReviews (goodAnswers answers) outcomes).length = 0 →
      (run_evaluation answers outcomes).status = RunStatus.FAILED ∧
      (run_evaluation answers outcomes).aggregation = none ∧
      (run_evaluation answers outcomes).errorRaised
        = some (evalFailDetail
            (usableReviews (goodAnswers answers) outcomes).isEmpty
            (reviewFailures (goodAnswers answers) outcomes))) ∧
    (∀ agg, (run_evaluation answers outcomes).aggregation = some agg →
      (usableReviews (goodAnswers answers) outcomes).length = outcomes.length ∧
      outcomes ≠ [] ∧
      (run_evaluation answers outcomes).status = RunStatus.COMPLETE) := by
  have hn : ¬ ((goodAnswers answers).length < 2) := not_lt.mpr h2
  have hre := run_evaluation_of_enough answers outcomes hn
  constructor
  · intro hS
    have hc : usableReviews (goodAnswers answers) outcomes = [] ∨
        (usableReviews (goodAnswers answers) outcomes).length < outcomes.length := by
      rcases hS with h | h
      · exact Or.inr h
      · exact Or.inl (List.length_eq_zero.mp h)
    rw [hre, if_pos hc]
    exact ⟨rfl, rfl, rfl⟩
  · intro agg hagg
    by_cases hc : usableReviews (goodAnswers answers) outcomes = [] ∨
        (usableReviews (goodAnswers answers) outcomes).length < outcomes.length
    · rw [hre, if_pos hc] at hagg
      exact absurd hagg (by simp)
    · push_neg at hc
      have hlen : (usableReviews (goodAnswers answers) outcomes).length
          = outcomes.length := by
        refine le_antisymm ?_ hc.2
        calc (usableReviews (goodAnswers answers) outcomes).length
            ≤ (outcomes.map (processOutcome (goodAnswers answers))).length :=
              List.length_filterMap_le _ _
          _ = outcomes.length := List.length_map _ _
      refine ⟨hlen, ?_, ?_⟩
      · intro h0
        apply hc.1
        subst h0
        rfl
      · rw [hre, if_neg (by push_neg; exact hc)]

/-- Claim C4, witness: two good answers, one reviewer whose task raised; the
evaluation fails with the collected reason and no aggregation. -/
theorem C4_all_or_nothing_witness :
    (run_evaluation [⟨some "A", none⟩, ⟨some "B", none⟩]
        [ReviewerOutcome.exc "boom"]).status = RunStatus.FAILED ∧
      (run_evaluation [⟨some "A", none⟩, ⟨some "B", none⟩]
        [ReviewerOutcome.exc "boom"]).aggregation = none ∧
      (run_evaluation [⟨some "A", none⟩, ⟨some "B", none⟩]
        [ReviewerOutcome.exc "boom"]).errorRaised
        = some (evalFailDetail
            (usableReviews (goodAnswers [⟨some "A", none⟩, ⟨some "B", none⟩])
              [ReviewerOutcome.exc "boom"]).isEmpty
            (reviewFailures (goodAnswers [⟨some "A", none⟩, ⟨some "B", none⟩])
              [ReviewerOutcome.exc "boom"])) :=
  (C4_all_or_nothing _ _ (by decide)).1 (by decide)

/-- Claim C10: on the partial-failure path (some but not all reviewers
usable), the Review rows of the successful reviewers are persisted together
with the FAILED status; only the AggregationResult is withheld, so a FAILED
run can carry Review children. -/
theorem C10_reviews_persisted_on_failure (answers : List AnswerRow)
    (outcomes : List ReviewerOutcome)
    (h2 : 2 ≤ (goodAnswers answers).length)
    (hpos : usableReviews (goodAnswers answers) outcomes ≠ [])
    (hlt : (usableReviews (goodAnswers answers) outcomes).length < outcomes.length) :
    (run_evaluation answers outcomes).status = RunStatus.FAILED ∧
    (run_evaluation answers outcomes).aggregation = none ∧
    (run_evaluation answers outcomes).persistedReviews
      = usableReviews (goodAnswers answers) outcomes ∧
    (run_evaluation answers outcomes).persistedReviews ≠ [] ∧
    (run_evaluation answers outcomes).errorRaised.isSome = true := by
  have hn : ¬ ((goodAnswers answers).length < 2) := not_lt.mpr h2
  rw [run_evaluation_of_enough answers outcomes hn, if_pos (Or.inr hlt)]
  exact ⟨rfl, rfl, rfl, hpos, rfl⟩

/-- Claim C10, witness: one reviewer succeeds, one raises; the successful
Review row is persisted on the FAILED run. -/
theorem C10_reviews_persisted_witness :
    (run_evaluation [⟨some "A", none⟩, ⟨some "B", none⟩]
        [ReviewerOutcome.res "p" "rev" ⟨["A", "B"], [], 0, "", none⟩,
         ReviewerOutcome.exc "boom"]).status = RunStatus.FAILED ∧
      (run_evaluation [⟨some "A", none⟩, ⟨some "B", none⟩]
        [ReviewerOutcome.res "p" "rev" ⟨["A", "B"], [], 0, "", none⟩,
         ReviewerOutcome.exc "boom"]).aggregation = none ∧
      (run_evaluation [⟨some "A", none⟩, ⟨some "B", none⟩]
        [ReviewerOutcome.res "p" "rev" ⟨["A", "B"], [], 0, "", none⟩,
         ReviewerOutcome.exc "boom"]).persistedReviews
        = usableReviews (goodAnswers [⟨some "A", none⟩, ⟨some "B", none⟩])
            [ReviewerOutcome.res "p" "rev" ⟨["A", "B"], [], 0, "", none⟩,
             ReviewerOutcome.exc "boom"] ∧
      (run_evaluation [⟨some "A", none⟩, ⟨some "B", none⟩]
        [ReviewerOutcome.res "p" "rev" ⟨["A", "B"], [], 0, "", none⟩,
         ReviewerOutcome.exc "boom"]).persistedReviews ≠ [] ∧
      (run_evaluation [⟨some "A", none⟩, ⟨some "B", none⟩]
        [ReviewerOutcome.res "p" "rev" ⟨["A", "B"], [], 0, "", none⟩,
         ReviewerOutcome.exc "boom"]).errorRaised.isSome = true :=
  C10_reviews_persisted_on_failure _ _ (by decide) (by decide) (by decide)

/-- Claim C6: for a reviewer result without an adapter-level error and with
an empty rank_order: when the score-derived rank order is non-empty it is
persisted, and it is exactly the truthy labels of the parsed reviews sorted
stably descending by (overall, correctness); when it is empty the candidate
answer labels are used in original order if at least 2 exist, and otherwise
the result is discarded as an "empty rank_order" failure. -/
theorem C6_fallback_rank_derivation (good : List AnswerRow)
    (provider name : String) (r : ReviewResult)
    (herr : strTruthy r.error = false) (hro : r.rank_order = []) :
    (derivedLabels r ≠ [] →
       processOutcome good (.res provider name r)
         = .review ⟨name, provider, r.parsed_reviews, derivedLabels r⟩ ∧
       (derivedLabels r).Perm (r.parsed_reviews.filterMap truthyLabel) ∧
       (sortRecordsDesc r.parsed_reviews).Pairwise
         (fun a b => recKey b ≤ recKey a)) ∧
    (derivedLabels r = [] →
       (2 ≤ (fallbackLabels good).length →
          processOutcome good (.res provider name r)
            = .review ⟨name, provider, r.parsed_reviews, fallbackLabels good⟩) ∧
       ((fallbackLabels good).length < 2 →
          processOutcome good (.res provider name r)
            = .failure (name ++ ": empty rank_order"))) := by
  haveI htot : IsTotal ScoreRecord (fun a b => recKey b ≤ recKey a) :=
    ⟨fun a b => le_total (recKey b) (recKey a)⟩
  haveI htrans : IsTrans ScoreRecord (fun a b => recKey b ≤ recKey a) :=
    ⟨fun a b c hab hbc => le_trans hbc hab⟩
  constructor
  · intro hd
    have hp : r.parsed_reviews ≠ [] := by
      intro h0
      apply hd
      simp [derivedLabels, sortRecordsDesc, h0]
    refine ⟨?_, ?_, ?_⟩
    · unfold processOutcome
      simp [herr, hro, hp, hd]
    · exact (List.perm_insertionSort _ r.parsed_reviews).filterMap truthyLabel
    · exact List.sorted_insertionSort _ r.parsed_reviews
  · intro hd
    constructor
    · intro h2
      unfold processOutcome
      by_cases hp : r.parsed_reviews = []
      · simp [herr, hro, hp, h2]
      · simp [herr, hro, hp, hd, h2]
    · intro h2
      have h2' : ¬ 2 ≤ (fallbackLabels good).length := not_le.mpr h2
      unfold processOutcome
      by_cases hp : r.parsed_reviews = []
      · simp [herr, hro, hp, h2']
      · simp [herr, hro, hp, hd, h2']

/-- Claim C6, witness: an errorless result with empty rank_order and two
scored reviews is persisted with the score-derived descending order. -/
theorem C6_fallback_witness :
    processOutcome [] (ReviewerOutcome.res "p" "rev"
        ⟨[], [⟨some "A", 5, 5⟩, ⟨some "B", 7, 3⟩], 0, "", none⟩)
      = Processed.review ⟨"rev", "p", [⟨some "A", 5, 5⟩, ⟨some "B", 7, 3⟩],
          derivedLabels ⟨[], [⟨some "A", 5, 5⟩, ⟨some "B", 7, 3⟩], 0, "", none⟩⟩ :=
  ((C6_fallback_rank_derivation [] "p" "rev"
      ⟨[], [⟨some "A", 5, 5⟩, ⟨some "B", 7, 3⟩], 0, "", none⟩
      (by decide) rfl).1 (by decide)).1

/-- The alphabet string of `assign_labels` (evaluation.py line 87) and of the
inline labeling in `generate_answers` (orchestrator.py line 174). -/
def alphabet : List Char := "ABCDEFGHIJKLMNOPQRSTUVWXYZ".toList

/-- The label formula `labels[i] if i < len(labels) else f"Z{i - 25}"`
(evaluation.py line 89 and orchestrator.py line 184). -/
def labelFor (i : Nat) : String :=
  if h : i < alphabet.length then (alphabet.get ⟨i, h⟩).toString
  else "Z" ++ toString (i - 25)

/-- Shallow embedding of `EvaluationService.assign_labels` (evaluation.py
lines 85-90): stamp each answer, in input order, with the label of its
index. -/
def assign_labels {α : Type} (answers : List α) : List (α × String) :=
  answers.enum.map (fun p => (p.2, labelFor p.1))

/-- Claim C7: `assign_labels` is deterministic in input order: the answer at
index i gets `labelFor i`, which for i < 26 is the (i+1)-th letter of A-Z
and for i ≥ 26 is `"Z{i-25}"`; in particular the 27th answer (index 26)
gets "Z1". -/
theorem C7_blind_label_determinism {α : Type} (xs : List α) (i : Nat) :
    (assign_labels xs).get? i = (xs.get? i).map (fun a => (a, labelFor i)) ∧
    (∀ j, j < 26 → labelFor j = (Char.ofNat (65 + j)).toString) ∧
    labelFor 26 = "Z1" := by
  refine ⟨?_, by decide, by decide⟩
  unfold assign_labels
  rw [List.get?_map, List.get?_enum]
  cases xs.get? i <;> rfl

/-- Claim C7, witness: the 6th answer gets "F" and the 27th gets "Z1". -/
theorem C7_blind_label_witness :
    labelFor 5 = (Char.ofNat (65 + 5)).toString ∧
      (assign_labels (["x", "y"] : List String)).get? 1
        = some ("y", labelFor 1) := by
  constructor
  · exact (C7_blind_label_determinism ([] : List String) 0).2.1 5 (by decide)
  · rw [(C7_blind_label_determinism (["x", "y"] : List String) 1).1]
    rfl
